import Mathlib

/-!
Verification of the monkeycompiler semantic-analysis / code-generation core.

Shallow embedding of:
  * `src/visitor/contextual/hashhelper.go` — the Hash Type Tracker,
  * `src/identification/attribute.go` — identification-table attributes,
  * `src/visitor/codegenerator/additionexpression.go` — `VisitAdditionTree`,
  * `src/handler/monkey.go` — the `parsing` pipeline and the `run` endpoint.

Go runtime panics (out-of-range index or slice bound) are modelled by
`Option`-returning functions: `none` is a panic, `some s` is normal return.
ANTLR tokens are abstract: the embedding is parametric in a type `Token`.
-/

namespace Monkey

/-! ## Hash Type Tracker (`src/visitor/contextual/hashhelper.go`) -/

/-- `type HashType int` with `HUNKNOWN HashType = iota; HINTEGER; HSTRING; HCOMPLEX`. -/
inductive HashType where
  | HUNKNOWN
  | HINTEGER
  | HSTRING
  | HCOMPLEX
deriving DecidableEq, Repr, Fintype

open HashType

/-- `type hash struct { token antlr.Token; key HashType }`.
The Go zero value `hash{}` has a nil token (here `none`) and key `HUNKNOWN` (= 0). -/
structure HashFrame (Token : Type) where
  token : Option Token
  key : HashType
deriving DecidableEq, Repr

/-- `type hashHelper struct { levels int; hashs []hash }`. -/
structure HashHelper (Token : Type) where
  levels : Int
  hashs : List (HashFrame Token)
deriving DecidableEq, Repr

/-- `newHashHelper()` returns `{levels: -1, hashs: []hash{}}`. -/
def newHashHelper (Token : Type) : HashHelper Token :=
  { levels := -1, hashs := [] }

/-- `newHash()`: `h.levels++; h.hashs = append(h.hashs, hash{})`. -/
def newHash {Token : Type} (h : HashHelper Token) : HashHelper Token :=
  { levels := h.levels + 1, hashs := h.hashs ++ [{ token := none, key := HUNKNOWN }] }

/-- `h.hashs[i].token = token`: functional update of one frame's token field. -/
def withToken {Token : Type} (f : HashFrame Token) (t : Token) : HashFrame Token :=
  { f with token := some t }

/-- `h.hashs[i].key = key`: functional update of one frame's key field. -/
def withKey {Token : Type} (f : HashFrame Token) (k : HashType) : HashFrame Token :=
  { f with key := k }

/-- `setToken(token)`: `if h.levels > -1 { h.hashs[h.levels].token = token }`.
Guarded: a no-op when `levels == -1`.  The index `h.hashs[h.levels]` still
panics (`none`) when `levels > -1` but out of range. -/
def setToken {Token : Type} (h : HashHelper Token) (t : Token) :
    Option (HashHelper Token) :=
  if -1 < h.levels then
    if hlt : h.levels.toNat < h.hashs.length then
      some { h with
             hashs := h.hashs.set h.levels.toNat
               (withToken (h.hashs.get ⟨h.levels.toNat, hlt⟩) t) }
    else
      none
  else
    some h

/-- `getToken()`: `return h.hashs[h.levels].token` — unguarded index,
panics (`none`) when `levels == -1` (or otherwise out of range). -/
def getToken {Token : Type} (h : HashHelper Token) : Option (Option Token) :=
  if hlt : 0 ≤ h.levels ∧ h.levels.toNat < h.hashs.length then
    some (h.hashs.get ⟨h.levels.toNat, hlt.2⟩).token
  else
    none

/-- `setType(key)`: `h.hashs[h.levels].key = key` — unguarded index,
panics (`none`) when `levels == -1` (or otherwise out of range). -/
def setType {Token : Type} (h : HashHelper Token) (k : HashType) :
    Option (HashHelper Token) :=
  if hlt : 0 ≤ h.levels ∧ h.levels.toNat < h.hashs.length then
    some { h with
           hashs := h.hashs.set h.levels.toNat
             (withKey (h.hashs.get ⟨h.levels.toNat, hlt.2⟩) k) }
  else
    none

/-- `getType()`: `if h.levels > -1 { return h.hashs[h.levels].key }; return HCOMPLEX`.
Guarded against the empty tracker; the index can still panic on an
unreachable state with `levels ≥ len(hashs)`. -/
def getType {Token : Type} (h : HashHelper Token) : Option HashType :=
  if -1 < h.levels then
    if hlt : h.levels.toNat < h.hashs.length then
      some (h.hashs.get ⟨h.levels.toNat, hlt⟩).key
    else
      none
  else
    some HCOMPLEX

/-- `closeHash()`: `h.hashs = h.hashs[:h.levels]; h.levels--`.
The slice expression panics (`none`) when `levels < 0` or past the end;
with `levels == -1` (empty tracker) it is the Go panic
`slice bounds out of range [:-1]`. -/
def closeHash {Token : Type} (h : HashHelper Token) : Option (HashHelper Token) :=
  if 0 ≤ h.levels ∧ h.levels.toNat ≤ h.hashs.length then
    some { levels := h.levels - 1, hashs := h.hashs.take h.levels.toNat }
  else
    none

/-- States of the tracker reachable from `newHashHelper()` by non-panicking
calls of its four mutating methods. -/
inductive Reachable {Token : Type} : HashHelper Token → Prop where
  | init : Reachable (newHashHelper Token)
  | push {h : HashHelper Token} : Reachable h → Reachable (newHash h)
  | pop {h h' : HashHelper Token} : Reachable h → closeHash h = some h' → Reachable h'
  | tok {h h' : HashHelper Token} {t : Token} :
      Reachable h → setToken h t = some h' → Reachable h'
  | ty {h h' : HashHelper Token} {k : HashType} :
      Reachable h → setType h k = some h' → Reachable h'

/-- `setToken` never changes `levels` or the number of frames. -/
theorem setToken_preserves {Token : Type} {h h' : HashHelper Token} {t : Token}
    (hs : setToken h t = some h') :
    h'.levels = h.levels ∧ h'.hashs.length = h.hashs.length := by
  unfold setToken at hs
  split at hs
  · split at hs
    · cases hs; simp
    · cases hs
  · cases hs; exact ⟨rfl, rfl⟩

/-- `setType` never changes `levels` or the number of frames. -/
theorem setType_preserves {Token : Type} {h h' : HashHelper Token} {k : HashType}
    (hs : setType h k = some h') :
    h'.levels = h.levels ∧ h'.hashs.length = h.hashs.length := by
  unfold setType at hs
  split at hs
  · cases hs; simp
  · cases hs

/-- `closeHash` preserves the counter/length invariant when it succeeds. -/
theorem closeHash_preserves {Token : Type} {h h' : HashHelper Token}
    (hinv : h.levels + 1 = (h.hashs.length : Int))
    (hc : closeHash h = some h') :
    h'.levels + 1 = (h'.hashs.length : Int) := by
  unfold closeHash at hc
  split at hc
  · rename_i hg
    cases hc
    simp only [List.length_take]
    have h1 : (h.levels.toNat : Int) = h.levels := Int.toNat_of_nonneg hg.1
    omega
  · cases hc

/-- The `levels` counter always equals the frame-list length minus one. -/
theorem Reachable.invariant {Token : Type} {h : HashHelper Token}
    (hr : Reachable h) : h.levels + 1 = (h.hashs.length : Int) := by
  induction hr with
  | init => simp [newHashHelper]
  | push _ ih => simp [newHash]; omega
  | pop _ hc ih => exact closeHash_preserves ih hc
  | tok _ hs ih =>
      have hp := setToken_preserves hs
      rw [hp.1, hp.2]; exact ih
  | ty _ hs ih =>
      have hp := setType_preserves hs
      rw [hp.1, hp.2]; exact ih

/-- `newHash` preserves the counter/length invariant. -/
theorem newHash_invariant {Token : Type} {h : HashHelper Token}
    (hinv : h.levels + 1 = (h.hashs.length : Int)) :
    (newHash h).levels + 1 = ((newHash h).hashs.length : Int) := by
  simp [newHash]
  omega

/-- Popping right after pushing restores the state exactly, given the
counter/length invariant. -/
theorem closeHash_newHash {Token : Type} {h : HashHelper Token}
    (hinv : h.levels + 1 = (h.hashs.length : Int)) :
    closeHash (newHash h) = some h := by
  have hnn : 0 ≤ h.levels + 1 := by omega
  have htn : (h.levels + 1).toNat = h.hashs.length := by omega
  unfold closeHash newHash
  simp only
  rw [if_pos]
  · congr 1
    refine congrArg₂ HashHelper.mk (by omega) ?_
    rw [htn]
    exact List.take_left h.hashs _
  · constructor
    · exact hnn
    · rw [htn]
      simp

/-- A call of `newHash` (open) or `closeHash` (close) on the tracker. -/
inductive HOp where
  | opn
  | cls
deriving DecidableEq, Repr

/-- Execute a sequence of `newHash`/`closeHash` calls; `none` as soon as one
of them panics. -/
def runOps {Token : Type} : List HOp → HashHelper Token → Option (HashHelper Token)
  | [], h => some h
  | HOp.opn :: w, h => runOps w (newHash h)
  | HOp.cls :: w, h => (closeHash h).bind (runOps w)

/-- Balanced (Dyck) sequences of open/close calls: every close matches an
earlier open of the same sequence, and all opens are closed. -/
inductive Balanced : List HOp → Prop where
  | nil : Balanced []
  | wrap {w : List HOp} : Balanced w → Balanced (HOp.opn :: w ++ [HOp.cls])
  | cat {w₁ w₂ : List HOp} : Balanced w₁ → Balanced w₂ → Balanced (w₁ ++ w₂)

theorem runOps_append {Token : Type} (w₁ w₂ : List HOp) (h : HashHelper Token) :
    runOps (w₁ ++ w₂) h = (runOps w₁ h).bind (runOps w₂) := by
  induction w₁ generalizing h with
  | nil => rfl
  | cons o w ih =>
      cases o with
      | opn => simp only [List.cons_append, runOps]; exact ih _
      | cls =>
          simp only [List.cons_append, runOps]
          cases closeHash h with
          | none => rfl
          | some h' => exact ih h'

/-- Running any balanced open/close sequence from a state satisfying the
counter/length invariant succeeds and restores the state exactly. -/
theorem runOps_balanced {Token : Type} {w : List HOp} (hb : Balanced w) :
    ∀ h : HashHelper Token, h.levels + 1 = (h.hashs.length : Int) → runOps w h = some h := by
  induction hb with
  | nil => intro h _; rfl
  | wrap hbw ih =>
      rename_i w'
      intro h hinv
      show runOps (HOp.opn :: (w' ++ [HOp.cls])) h = some h
      simp only [runOps]
      rw [runOps_append, ih (newHash h) (newHash_invariant hinv)]
      simp only [Option.some_bind]
      simp only [runOps]
      rw [closeHash_newHash hinv]
      rfl
  | cat _ _ ih₁ ih₂ =>
      intro h hinv
      rw [runOps_append, ih₁ h hinv]
      exact ih₂ h hinv

/-- **C2.** For every balanced sequence of `newHash()`/`closeHash()` calls on
the Hash Type Tracker starting from any reachable tracker state, the stack
depth (both the `levels` counter and the length of the frame list) returns to
its pre-sequence value and no frame leaks — the run succeeds and restores the
state exactly; in particular, executing `closeHash()` immediately after
`newHash()` leaves the frame list (hence its size) equal to what it was before
the `newHash()`. -/
theorem balanced_open_close_restores_state {Token : Type} {h : HashHelper Token}
    {w : List HOp} (hr : Reachable h) (hb : Balanced w) :
    runOps w h = some h ∧ closeHash (newHash h) = some h :=
  ⟨runOps_balanced hb h hr.invariant, closeHash_newHash hr.invariant⟩

/-- Witness for C2: the balanced sequence `[open, close]` run on the freshly
created tracker returns it unchanged. -/
theorem balanced_open_close_restores_state_witness :
    runOps [HOp.opn, HOp.cls] (newHashHelper Nat) = some (newHashHelper Nat) ∧
    closeHash (newHash (newHashHelper Nat)) = some (newHashHelper Nat) :=
  balanced_open_close_restores_state Reachable.init (Balanced.wrap Balanced.nil)

/-- **C4.** On every reachable tracker state with no open frame
(`levels == -1`), `getType()` returns `HCOMPLEX` without panicking; on every
reachable state with at least one open frame it returns the top (last) frame's
inferred key type. -/
theorem getType_complex_on_empty_else_top {Token : Type} {h : HashHelper Token}
    (hr : Reachable h) :
    (h.levels = -1 → getType h = some HCOMPLEX) ∧
    (-1 < h.levels → ∃ f, h.hashs.getLast? = some f ∧ getType h = some f.key) := by
  have hinv := hr.invariant
  constructor
  · intro he
    unfold getType
    rw [if_neg (by omega)]
  · intro hpos
    have hlt : h.levels.toNat < h.hashs.length := by omega
    refine ⟨h.hashs.get ⟨h.levels.toNat, hlt⟩, ?_, ?_⟩
    · rw [List.getLast?_eq_getElem?, List.getElem?_eq_getElem (by omega)]
      have hix : h.hashs.length - 1 = h.levels.toNat := by omega
      simp [List.get_eq_getElem, hix]
    · unfold getType
      rw [if_pos (by omega), dif_pos hlt]

/-- Witness for C4: the fresh tracker yields `HCOMPLEX`; after one `newHash`
the top frame (key `HUNKNOWN`) is reported. -/
theorem getType_complex_on_empty_else_top_witness :
    getType (newHashHelper Nat) = some HCOMPLEX ∧
    (∃ f, (newHash (newHashHelper Nat)).hashs.getLast? = some f ∧
      getType (newHash (newHashHelper Nat)) = some f.key) :=
  ⟨(getType_complex_on_empty_else_top Reachable.init).1 rfl,
   (getType_complex_on_empty_else_top (Reachable.push Reachable.init)).2 (by decide)⟩

/-- **C7.** On every reachable tracker state, `closeHash()` with no open frame
(`levels == -1`) panics (the Go slice expression `h.hashs[:-1]` is out of
range, modelled as `none`) rather than returning an error value or doing
nothing; with at least one open frame it does not fail. -/
theorem closeHash_panics_iff_empty {Token : Type} {h : HashHelper Token}
    (hr : Reachable h) :
    (h.levels = -1 → closeHash h = none) ∧
    (-1 < h.levels → ∃ h', closeHash h = some h') := by
  have hinv := hr.invariant
  constructor
  · intro he
    unfold closeHash
    rw [if_neg (by omega)]
  · intro hpos
    unfold closeHash
    rw [if_pos (by constructor <;> omega)]
    exact ⟨_, rfl⟩

/-- Witness for C7: the fresh tracker panics on `closeHash`; after one
`newHash` the call succeeds. -/
theorem closeHash_panics_iff_empty_witness :
    closeHash (newHashHelper Nat) = none ∧
    ∃ h', closeHash (newHash (newHashHelper Nat)) = some h' :=
  ⟨(closeHash_panics_iff_empty Reachable.init).1 rfl,
   (closeHash_panics_iff_empty (Reachable.push Reachable.init)).2 (by decide)⟩

/-- **C9.** On a tracker with no open frame (`levels == -1`), the unguarded
operations `getToken()` and `setType(k)` panic with an out-of-range index
(modelled as `none`), while `setToken` is a guarded no-op and `getType` a
guarded `HCOMPLEX` — the spec's empty-stack-safety promise covers only the
latter two. -/
theorem getToken_setType_panic_on_empty {Token : Type} (h : HashHelper Token)
    (t : Token) (k : HashType) (he : h.levels = -1) :
    getToken h = none ∧ setType h k = none ∧ setToken h t = some h ∧
    getType h = some HCOMPLEX := by
  refine ⟨?_, ?_, ?_, ?_⟩
  · unfold getToken
    rw [dif_neg (by omega)]
  · unfold setType
    rw [dif_neg (by omega)]
  · unfold setToken
    rw [if_neg (by omega)]
  · unfold getType
    rw [if_neg (by omega)]

/-- Witness for C9 on the freshly created tracker. -/
theorem getToken_setType_panic_on_empty_witness :
    getToken (newHashHelper Nat) = none ∧
    setType (newHashHelper Nat) HINTEGER = none ∧
    setToken (newHashHelper Nat) 0 = some (newHashHelper Nat) ∧
    getType (newHashHelper Nat) = some HCOMPLEX :=
  getToken_setType_panic_on_empty (newHashHelper Nat) 0 HINTEGER rfl

/-- Modelled from the spec: the key-type refinement step `observeKeyType` of
the contextual visitor's hash-expression rule is not among the excerpted
source files (only the raw field write `setType` is); per the spec it refines
the current frame's `inferredKeyType` by: `Unknown → type` (first key sets the
baseline), `type == current → unchanged`, otherwise `→ Complex` (once Complex,
stays Complex). -/
def observeKeyType (current observed : HashType) : HashType :=
  if current = HUNKNOWN then observed
  else if observed = current then current
  else HCOMPLEX

/-- `observeKeyType` is left-commutative on observations of determinate key
types (an actual key's type is never `HUNKNOWN`, which stands for "nothing
observed yet"). -/
theorem observeKeyType_left_comm :
    ∀ c a b : HashType, a ≠ HUNKNOWN → b ≠ HUNKNOWN →
      observeKeyType (observeKeyType c a) b = observeKeyType (observeKeyType c b) a := by
  decide

/-- Folding `observeKeyType` over a multiset of determinate observations is
order-insensitive. -/
theorem foldl_observeKeyType_perm {l₁ l₂ : List HashType} (hp : l₁.Perm l₂)
    (hu : ∀ x ∈ l₁, x ≠ HUNKNOWN) :
    ∀ c : HashType, l₁.foldl observeKeyType c = l₂.foldl observeKeyType c := by
  induction hp with
  | nil => intro c; rfl
  | cons x _ ih =>
      intro c
      simp only [List.foldl_cons]
      exact ih (fun y hy => hu y (List.mem_cons_of_mem _ hy)) _
  | swap x y _ =>
      intro c
      simp only [List.foldl_cons]
      rw [observeKeyType_left_comm c x y
        (hu x (by simp)) (hu y (by simp))]
  | trans h₁ _ ih₁ ih₂ =>
      intro c
      rw [ih₁ hu c]
      exact ih₂ (fun y hy => hu y ((h₁.mem_iff).2 hy)) c

/-- **C5.** Observing key types on an open frame of the Hash Type Tracker is
order-insensitive for a fixed multiset of observed key types (an observation
is the determinate type of an actual key, never `HUNKNOWN`), and once a
frame's inferred key type becomes `HCOMPLEX` it stays `HCOMPLEX` under any
further observation; in particular {Integer, Integer, String} in any order
yields `HCOMPLEX` and {Integer, Integer} yields `HINTEGER`. -/
theorem observeKeyType_order_insensitive :
    (∀ (c : HashType) (l₁ l₂ : List HashType), l₁.Perm l₂ →
        (∀ x ∈ l₁, x ≠ HUNKNOWN) →
        l₁.foldl observeKeyType c = l₂.foldl observeKeyType c) ∧
    (∀ t : HashType, observeKeyType HCOMPLEX t = HCOMPLEX) ∧
    (∀ l : List HashType, l.Perm [HINTEGER, HINTEGER, HSTRING] →
        l.foldl observeKeyType HUNKNOWN = HCOMPLEX) ∧
    [HINTEGER, HINTEGER].foldl observeKeyType HUNKNOWN = HINTEGER := by
  refine ⟨fun c l₁ l₂ hp hu => foldl_observeKeyType_perm hp hu c, by decide, ?_, by decide⟩
  intro l hp
  have hu : ∀ x ∈ l, x ≠ HUNKNOWN := by
    intro x hx hxx
    subst hxx
    exact absurd ((hp.mem_iff).1 hx) (by decide)
  rw [foldl_observeKeyType_perm hp hu HUNKNOWN]
  decide

/-- Witness for C5: concrete permuted observation sequences. -/
theorem observeKeyType_order_insensitive_witness :
    [HSTRING, HINTEGER, HINTEGER].foldl observeKeyType HUNKNOWN =
      [HINTEGER, HINTEGER, HSTRING].foldl observeKeyType HUNKNOWN ∧
    observeKeyType HCOMPLEX HSTRING = HCOMPLEX ∧
    [HSTRING, HINTEGER, HINTEGER].foldl observeKeyType HUNKNOWN = HCOMPLEX ∧
    [HINTEGER, HINTEGER].foldl observeKeyType HUNKNOWN = HINTEGER :=
  ⟨observeKeyType_order_insensitive.1 HUNKNOWN _ _ (by decide) (by decide),
   observeKeyType_order_insensitive.2.1 HSTRING,
   observeKeyType_order_insensitive.2.2.1 _ (by decide),
   observeKeyType_order_insensitive.2.2.2⟩

/-! ## Code generator: `VisitAdditionTree`
(`src/visitor/codegenerator/additionexpression.go`)

The visitor appends instructions to a buffer; `v.Visit(sub)` appends the code
of the subtree `sub`.  The embedding abstracts the instruction type as `α` and
the code emitted for the i-th `multiplicationExpression` / `additionFactor`
subtree as `operandCode i` / `factorCode i`. -/

/-- The loop of `VisitAdditionTree`:
`for index < totalBranches { Visit(MultiplicationExpression(index));
Visit(AdditionFactor(index-1)); index++ }`. -/
def emitChain {α : Type} (operandCode factorCode : Nat → List α)
    (totalBranches index : Nat) : List α :=
  if _hix : index < totalBranches then
    operandCode index ++ factorCode (index - 1) ++
      emitChain operandCode factorCode totalBranches (index + 1)
  else
    []
termination_by totalBranches - index
decreasing_by omega

/-- `VisitAdditionTree`: `Visit(MultiplicationExpression(0))`, then the loop
starting at `index = 1`. -/
def VisitAdditionTree {α : Type} (operandCode factorCode : Nat → List α)
    (totalBranches : Nat) : List α :=
  operandCode 0 ++ emitChain operandCode factorCode totalBranches 1

theorem emitChain_eq {α : Type} (oc fc : Nat → List α) :
    ∀ (n index : Nat),
      emitChain oc fc (index + n) index =
        (List.range n).flatMap (fun j => oc (index + j) ++ fc (index + j - 1)) := by
  intro n
  induction n with
  | zero =>
      intro index
      unfold emitChain
      simp
  | succ m ih =>
      intro index
      rw [emitChain]
      rw [dif_pos (by omega)]
      have harg : index + (m + 1) = (index + 1) + m := by omega
      rw [harg, ih (index + 1)]
      have hfun : (fun j => oc (index + 1 + j) ++ fc (index + 1 + j - 1)) =
          (fun j => oc (index + (j + 1)) ++ fc (index + (j + 1) - 1)) := by
        funext j
        have e1 : index + 1 + j = index + (j + 1) := by omega
        rw [e1]
      rw [hfun]
      rw [List.range_succ_eq_map, List.flatMap_cons, List.flatMap_map]
      simp only [Nat.succ_eq_add_one, Nat.add_zero]

theorem length_flatMap_operand_op {α : Type} (oc : Nat → List α) (op : Nat → α)
    (k : Nat) :
    ((List.range k).flatMap (fun i => oc (i + 1) ++ [op i])).length =
      ((List.range k).map (fun i => (oc (i + 1)).length)).sum + k := by
  induction k with
  | zero => rfl
  | succ m ih =>
      rw [List.range_succ, List.flatMap_append, List.length_append, ih]
      simp only [List.map_append, List.sum_append, List.map_cons, List.map_nil,
        List.sum_cons, List.sum_nil]
      simp [List.flatMap]
      omega

/-- **C1.** For an addition/subtraction chain with `k+1` operands
`a0 .. ak` whose separating factors each emit one operator instruction,
`VisitAdditionTree` emits `code(a0) code(a1) op1 code(a2) op2 … code(ak) opk`:
operand 0 first, then for each `i = 1..k` operand i's code followed by the
single operator separating operands i-1 and i; the stream length shows exactly
`k` operator emissions for `k+1` operands. -/
theorem VisitAdditionTree_stream {α : Type} (oc : Nat → List α) (op : Nat → α)
    (k : Nat) :
    VisitAdditionTree oc (fun i => [op i]) (k + 1) =
      oc 0 ++ (List.range k).flatMap (fun i => oc (i + 1) ++ [op i]) ∧
    (VisitAdditionTree oc (fun i => [op i]) (k + 1)).length =
      (oc 0).length + ((List.range k).map (fun i => (oc (i + 1)).length)).sum + k := by
  have he := emitChain_eq oc (fun i => [op i]) k 1
  have hstream : VisitAdditionTree oc (fun i => [op i]) (k + 1) =
      oc 0 ++ (List.range k).flatMap (fun i => oc (i + 1) ++ [op i]) := by
    unfold VisitAdditionTree
    have h1 : k + 1 = 1 + k := by omega
    rw [h1, he]
    have hfun : (fun j => oc (1 + j) ++ (fun i => [op i]) (1 + j - 1)) =
        (fun i : Nat => oc (i + 1) ++ [op i]) := by
      funext j
      show oc (1 + j) ++ [op (1 + j - 1)] = oc (j + 1) ++ [op j]
      have e1 : 1 + j = j + 1 := by omega
      rw [e1, Nat.add_sub_cancel]
    rw [hfun]
  refine ⟨hstream, ?_⟩
  rw [hstream, List.length_append, length_flatMap_operand_op]
  omega

/-! ## Identification-table attributes (`src/identification/attribute.go`) -/

/-- `type ExpressionType int` with
`NEUTRAL ExpressionType = iota; IDENTIFIER; FUNCTION; HASH; ARRAY`. -/
inductive ExpressionType where
  | NEUTRAL
  | IDENTIFIER
  | FUNCTION
  | HASH
  | ARRAY
deriving DecidableEq, Repr

/-- `type attribute struct { expression ExpressionType; token antlr.Token;
visited bool; data interface{} }`; tokens and the kind-specific payload are
abstract. -/
structure Attribute (Token Data : Type) where
  expression : ExpressionType
  token : Option Token
  visited : Bool
  data : Option Data
deriving DecidableEq, Repr

/-- `NewAttribute(expression, token, data)`: the `visited` field is omitted in
the Go composite literal, so it gets the zero value `false`. -/
def NewAttribute {Token Data : Type} (e : ExpressionType) (t : Option Token)
    (d : Option Data) : Attribute Token Data :=
  { expression := e, token := t, visited := false, data := d }

/-- `markVisited()`: `a.visited = true`. -/
def Attribute.markVisited {Token Data : Type} (a : Attribute Token Data) :
    Attribute Token Data :=
  { a with visited := true }

/-- `wasVisited()`: `return a.visited`. -/
def Attribute.wasVisited {Token Data : Type} (a : Attribute Token Data) : Bool :=
  a.visited

/-- `getToken()`: `return a.token`. -/
def Attribute.getToken {Token Data : Type} (a : Attribute Token Data) :
    Option Token :=
  a.token

/-- `GetType()`: `return a.expression`. -/
def Attribute.GetType {Token Data : Type} (a : Attribute Token Data) :
    ExpressionType :=
  a.expression

/-- `GetData()`: `return a.data`. -/
def Attribute.GetData {Token Data : Type} (a : Attribute Token Data) :
    Option Data :=
  a.data

/-- The complete method set of `attribute`; the getters leave the receiver
untouched, `markVisited` is the only mutator. -/
inductive AttrOp where
  | markVisited
  | getToken
  | wasVisited
  | getType
  | getData
deriving DecidableEq, Repr

/-- The state transformation performed on the receiver by each method. -/
def Attribute.applyOp {Token Data : Type} (a : Attribute Token Data)
    (op : AttrOp) : Attribute Token Data :=
  match op with
  | AttrOp.markVisited => a.markVisited
  | _ => a

theorem Attribute.applyOp_visited_monotone {Token Data : Type}
    (a : Attribute Token Data) (op : AttrOp) (hv : a.visited = true) :
    (a.applyOp op).visited = true := by
  cases op <;> simp [Attribute.applyOp, Attribute.markVisited, hv]

theorem Attribute.foldl_applyOp_visited {Token Data : Type}
    (ops : List AttrOp) :
    ∀ a : Attribute Token Data, a.visited = true →
      (ops.foldl Attribute.applyOp a).visited = true := by
  induction ops with
  | nil => intro a hv; exact hv
  | cons op rest ih =>
      intro a hv
      exact ih _ (Attribute.applyOp_visited_monotone a op hv)

/-- **C8.** Every `attribute` is created with `visited == false`; `markVisited`
is idempotent and is the only method that writes the flag; no method ever
resets it (the flag is monotone `false → true`), so after the first
`markVisited` every later `wasVisited()` call returns `true` no matter which
methods run in between. -/
theorem attribute_visited_flag {Token Data : Type} (e : ExpressionType)
    (t : Option Token) (d : Option Data) (a : Attribute Token Data)
    (op : AttrOp) (ops : List AttrOp) :
    (NewAttribute e t d).wasVisited = false ∧
    a.markVisited.markVisited = a.markVisited ∧
    (op ≠ AttrOp.markVisited → a.applyOp op = a) ∧
    (a.wasVisited = true → (a.applyOp op).wasVisited = true) ∧
    (ops.foldl Attribute.applyOp a.markVisited).wasVisited = true := by
  refine ⟨rfl, rfl, ?_, ?_, ?_⟩
  · intro hne
    cases op with
    | markVisited => exact absurd rfl hne
    | getToken => rfl
    | wasVisited => rfl
    | getType => rfl
    | getData => rfl
  · exact Attribute.applyOp_visited_monotone a op
  · exact Attribute.foldl_applyOp_visited ops a.markVisited rfl

/-- Witness for C8: a fresh attribute is unvisited; a getter leaves it alone;
after `markVisited`, `wasVisited` stays `true` across further calls. -/
theorem attribute_visited_flag_witness :
    (NewAttribute ExpressionType.IDENTIFIER none none :
        Attribute Nat Nat).wasVisited = false ∧
    ((NewAttribute ExpressionType.IDENTIFIER none none :
        Attribute Nat Nat).applyOp AttrOp.getData =
      NewAttribute ExpressionType.IDENTIFIER none none) ∧
    ([AttrOp.getToken, AttrOp.wasVisited, AttrOp.getData].foldl
        Attribute.applyOp
        (NewAttribute ExpressionType.IDENTIFIER none none :
          Attribute Nat Nat).markVisited).wasVisited = true :=
  ⟨(attribute_visited_flag ExpressionType.IDENTIFIER none none
      (NewAttribute ExpressionType.IDENTIFIER none none) AttrOp.getData
      [AttrOp.getToken, AttrOp.wasVisited, AttrOp.getData]).1,
   (attribute_visited_flag ExpressionType.IDENTIFIER none none
      (NewAttribute ExpressionType.IDENTIFIER none none) AttrOp.getData
      [AttrOp.getToken, AttrOp.wasVisited, AttrOp.getData]).2.2.1 (by decide),
   (attribute_visited_flag ExpressionType.IDENTIFIER none none
      (NewAttribute ExpressionType.IDENTIFIER none none) AttrOp.getData
      [AttrOp.getToken, AttrOp.wasVisited, AttrOp.getData]).2.2.2.2⟩

/-! ## The compile pipeline (`src/handler/monkey.go`, `parsing`) -/

/-- Modelled from the spec: the parser/contextual error handlers
(`errors.NewParserErrorListener`, `identification.NewErrorsHandler`) are not
among the excerpted source files; per the spec each accumulates an ordered
list of error messages together with the associated 1-based source line
numbers, index-aligned — modelled as one list of (message, line) pairs whose
`Errors()` / `Lines()` views are the two projections (`Errors()` is Go `nil`
iff the list is empty).  `saveError` is the outcome of the `save` call
(`some message` iff the file write failed). -/
structure ParseOutcome where
  parserErrors : List (String × Int)
  contextualErrors : List (String × Int)
  saveError : Option String
deriving DecidableEq, Repr

/-- What `parsing` hands back to the caller, plus whether the code generator
visitor was started. -/
structure ParseResult where
  errors : List String
  lines : List Int
  codegenRan : Bool
deriving DecidableEq, Repr

/-- `parsing(program)` from `src/handler/monkey.go`: if the parser reported
errors, return them; otherwise run contextual analysis; if it reported errors,
return them; otherwise run the code generator and save its output, returning
`([err.Error()], [])` if the save failed and `([], [])` on full success. -/
def parsing (o : ParseOutcome) : ParseResult :=
  if o.parserErrors = [] then
    if o.contextualErrors = [] then
      match o.saveError with
      | some e => { errors := [e], lines := [], codegenRan := true }
      | none => { errors := [], lines := [], codegenRan := true }
    else
      { errors := o.contextualErrors.map Prod.fst,
        lines := o.contextualErrors.map Prod.snd,
        codegenRan := false }
  else
    { errors := o.parserErrors.map Prod.fst,
      lines := o.parserErrors.map Prod.snd,
      codegenRan := false }

/-- **C3, counterexample.** A request whose parse and contextual analysis
succeed but whose instruction-file save fails returns one error message and
an empty line list: the two lists differ in length, so they are not
index-aligned on every compile request. -/
theorem parsing_length_counterexample :
    ¬ ((parsing (⟨[], [], some "Failed to save file. permission denied"⟩ : ParseOutcome)).errors.length =
       (parsing (⟨[], [], some "Failed to save file. permission denied"⟩ : ParseOutcome)).lines.length) := by
  decide

/-- **C3, amended.** The error-message list and the line-number list returned
by `parsing` have equal length except on the save-failure path, where the
error list is the single save message and the line list empty; on a fully
successful compilation both lists are empty. -/
theorem parsing_lengths (o : ParseOutcome) :
    (o.parserErrors ≠ [] ∨ o.contextualErrors ≠ [] →
      (parsing o).errors.length = (parsing o).lines.length) ∧
    (o.saveError = none →
      (parsing o).errors.length = (parsing o).lines.length) ∧
    (o.parserErrors = [] → o.contextualErrors = [] → o.saveError = none →
      (parsing o).errors = [] ∧ (parsing o).lines = []) ∧
    (∀ e, o.parserErrors = [] → o.contextualErrors = [] → o.saveError = some e →
      (parsing o).errors = [e] ∧ (parsing o).lines = []) := by
  refine ⟨?_, ?_, ?_, ?_⟩
  · intro hne
    unfold parsing
    rcases hp : o.parserErrors with _ | ⟨x, xs⟩
    · rcases hc : o.contextualErrors with _ | ⟨y, ys⟩
      · rcases hne with hne | hne
        · exact absurd hp hne
        · exact absurd hc hne
      · simp
    · simp
  · intro hs
    unfold parsing
    rcases hp : o.parserErrors with _ | ⟨x, xs⟩
    · rcases hc : o.contextualErrors with _ | ⟨y, ys⟩
      · rw [hs]; simp
      · simp
    · simp
  · intro hp hc hs
    unfold parsing
    rw [hp, hc, hs]
    exact ⟨rfl, rfl⟩
  · intro e hp hc hs
    unfold parsing
    rw [hp, hc, hs]
    exact ⟨rfl, rfl⟩

/-- Witness for the amended C3: a contextual-error request has aligned lists;
a fully successful request returns two empty lists; a save failure returns the
lone message with no line. -/
theorem parsing_lengths_witness :
    (parsing (⟨[], [("Undeclared(x)", 3)], none⟩ : ParseOutcome)).errors.length =
      (parsing (⟨[], [("Undeclared(x)", 3)], none⟩ : ParseOutcome)).lines.length ∧
    ((parsing (⟨[], [], none⟩ : ParseOutcome)).errors = [] ∧
      (parsing (⟨[], [], none⟩ : ParseOutcome)).lines = []) ∧
    ((parsing (⟨[], [], some "Failed to save file. disk full"⟩ : ParseOutcome)).errors =
        ["Failed to save file. disk full"] ∧
      (parsing (⟨[], [], some "Failed to save file. disk full"⟩ : ParseOutcome)).lines = []) :=
  ⟨(parsing_lengths _).1 (Or.inr (by decide)),
   (parsing_lengths _).2.2.1 rfl rfl rfl,
   (parsing_lengths _).2.2.2 _ rfl rfl rfl⟩

/-- **C6.** The code generator visitor runs only when contextual analysis of
the tree produced zero errors: whenever the contextual error list is
non-empty, code generation is never invoked. -/
theorem codegen_only_without_contextual_errors (o : ParseOutcome)
    (h : o.contextualErrors ≠ []) : (parsing o).codegenRan = false := by
  unfold parsing
  rcases hp : o.parserErrors with _ | ⟨x, xs⟩
  · rcases hc : o.contextualErrors with _ | ⟨y, ys⟩
    · exact absurd hc h
    · simp
  · simp

/-- Witness for C6: one contextual error (`Undeclared(x)` at line 1) keeps the
code generator from running. -/
theorem codegen_only_without_contextual_errors_witness :
    (parsing (⟨[], [("Undeclared(x)", 1)], none⟩ : ParseOutcome)).codegenRan = false :=
  codegen_only_without_contextual_errors _ (by decide)

/-! ## The run endpoint (`src/handler/monkey.go`, `run`) -/

/-- The environment `run()` observes: `statError` is `some message` iff
`os.Stat(cli.InstructionsCode)` failed (instructions file missing), and
`execOutput` is the captured standard output of the VM process or the
launch/exit error message.  Go `strings.TrimSpace` is modelled by
`String.trim`. -/
structure RunEnv where
  statError : Option String
  execOutput : Except String String

/-- `run()` from `src/handler/monkey.go`: the result string, paired with
whether `exec.Command(cli.VM, cli.InstructionsCode)` was launched. -/
def runVM (env : RunEnv) : String × Bool :=
  match env.statError with
  | some e =>
      ("Instructions code not found. Must compile first." ++ "\n" ++ e.trim ++
        "\n...failed", false)
  | none =>
      match env.execOutput with
      | Except.error e => (e.trim ++ "\n...failed", true)
      | Except.ok out => (out.trim ++ "\n...finished", true)

/-- No string ends in both `"...finished"` and `"...failed"`. -/
theorem finished_ne_failed (p q : String) :
    p ++ "...finished" ≠ q ++ "...failed" := by
  intro hcontra
  have hd : (p ++ "...finished").data = (q ++ "...failed").data := by
    rw [hcontra]
  rw [String.data_append, String.data_append] at hd
  have h1 := congrArg List.reverse hd
  rw [List.reverse_append, List.reverse_append] at h1
  have hfin : "...finished".data.reverse =
      ['d', 'e', 'h', 's', 'i', 'n', 'i', 'f', '.', '.', '.'] := rfl
  have hfail : "...failed".data.reverse =
      ['d', 'e', 'l', 'i', 'a', 'f', '.', '.', '.'] := rfl
  rw [hfin, hfail] at h1
  simp only [List.cons_append, List.cons.injEq] at h1
  exact absurd h1.2.2.1 (by decide)

/-- **C10.** When the instructions-code file does not exist, `run()` returns a
failure string that starts with
`"Instructions code not found. Must compile first."` and ends in
`"...failed"`, without launching the VM process; and every `run()` result
string ends in exactly one of `"...finished"` (VM ran successfully) or
`"...failed"` (missing file or VM launch/exit error). -/
theorem run_result_classification (env : RunEnv) :
    (∀ e, env.statError = some e →
      (runVM env).2 = false ∧
      (∃ rest, (runVM env).1 =
        "Instructions code not found. Must compile first." ++ rest) ∧
      (∃ p, (runVM env).1 = p ++ "...failed")) ∧
    ((∃ p, (runVM env).1 = p ++ "...finished") ∨
      (∃ p, (runVM env).1 = p ++ "...failed")) ∧
    ¬ ((∃ p, (runVM env).1 = p ++ "...finished") ∧
       (∃ p, (runVM env).1 = p ++ "...failed")) := by
  refine ⟨?_, ?_, ?_⟩
  · intro e he
    refine ⟨?_, ?_, ?_⟩
    · unfold runVM
      rw [he]
    · refine ⟨"\n" ++ (e.trim ++ "\n...failed"), ?_⟩
      unfold runVM
      rw [he]
      simp only
      rw [String.append_assoc, String.append_assoc]
    · refine ⟨"Instructions code not found. Must compile first." ++ "\n" ++
        e.trim ++ "\n", ?_⟩
      unfold runVM
      rw [he]
      simp only
      rw [show ("\n...failed" : String) = "\n" ++ "...failed" from rfl,
        ← String.append_assoc]
  · unfold runVM
    rcases env.statError with _ | e
    · rcases env.execOutput with e | out
      · right
        refine ⟨e.trim ++ "\n", ?_⟩
        simp only
        rw [show ("\n...failed" : String) = "\n" ++ "...failed" from rfl,
          ← String.append_assoc]
      · left
        refine ⟨out.trim ++ "\n", ?_⟩
        simp only
        rw [show ("\n...finished" : String) = "\n" ++ "...finished" from rfl,
          ← String.append_assoc]
    · right
      refine ⟨"Instructions code not found. Must compile first." ++ "\n" ++
        e.trim ++ "\n", ?_⟩
      simp only
      rw [show ("\n...failed" : String) = "\n" ++ "...failed" from rfl,
        ← String.append_assoc]
  · rintro ⟨⟨p, hp⟩, ⟨q, hq⟩⟩
    rw [hp] at hq
    exact finished_ne_failed p q hq

/-- Witness for C10: with the instructions file missing, the VM is not
launched and the result is the compile-first failure string; with the file
present and the VM succeeding, the result ends in `"...finished"` only. -/
theorem run_result_classification_witness :
    ((runVM ⟨some "stat: no such file or directory", Except.ok "7"⟩).2 = false ∧
      (∃ rest, (runVM ⟨some "stat: no such file or directory", Except.ok "7"⟩).1 =
        "Instructions code not found. Must compile first." ++ rest) ∧
      (∃ p, (runVM ⟨some "stat: no such file or directory", Except.ok "7"⟩).1 =
        p ++ "...failed")) ∧
    ¬ ((∃ p, (runVM ⟨none, Except.ok "7"⟩).1 = p ++ "...finished") ∧
       (∃ p, (runVM ⟨none, Except.ok "7"⟩).1 = p ++ "...failed")) :=
  ⟨(run_result_classification ⟨some "stat: no such file or directory",
      Except.ok "7"⟩).1 "stat: no such file or directory" rfl,
   (run_result_classification ⟨none, Except.ok "7"⟩).2.2⟩

end Monkey
